import Mathlib

/-!
Verification of the cjit command-line driver (src/main.c and src/cjit.c).

The development shallowly embeds the driver logic of the two translation
units. Pure C functions become Lean functions on `List Char` / `String`;
the side-effecting driver `main` functions become functions from an
argument vector and an environment of collaborator oracles to a result
record carrying the exit code and a trace of externally visible effects.

Code of the repository that is not under src/ (the vendored `ketopt`
option scanner, the `CJITState` constructor/destructor, `cjit_exec`,
`file_load`, `muntargz_to_path`, `load_stdin`, `mkdtemp`, `rm_recursive`)
is modelled from the specification, as marked in the doc comments.
-/

namespace CJIT

/-- The NUL byte written by `str[i]=0x0` in `parse_value`. -/
def nulChar : Char := '\x00'

/-- Embedding of the C test `isalnum(str[i]) || str[i] == '_'` used by
`parse_value` (src/src/main.c line 49, src/src/cjit.c line 87), with
`isalnum` in the C locale: ASCII digits and Latin letters. -/
def isAlnumUnd (c : Char) : Bool :=
  decide (('0' ≤ c ∧ c ≤ '9') ∨ ('a' ≤ c ∧ c ≤ 'z') ∨ ('A' ≤ c ∧ c ≤ 'Z') ∨ c = '_')

/-- Embedding of the scanning loop of `parse_value` (src/src/main.c lines
35-60; the identical copy is src/src/cjit.c lines 73-98), tracking both the
return value and the buffer contents after the in-place mutation.

The C loop at index `i` tests, in order: `equal_found && str[i]=='='`
(return -1), `str[i]=='='` (write `str[i]=0x0`, record `value_pos=i+1`,
set `equal_found`, `continue` *without* advancing `i`), the character
class test (return -1), then increments `i` and tests `i > 1024`
(return -1). Because the `continue` does not advance `i` and the `=` was
just overwritten with NUL, the next loop test `str[i] != '\0'` fails and
the loop exits, returning `value_pos = i+1`; consequently the
`equal_found && str[i]=='='` branch can never run and no character after
the first `=` is ever examined. The embedding therefore returns `i+1`
directly at the first `=`. The returned list is the buffer: unchanged on
every path except the `=` branch, which replaces the `=` by NUL. -/
def parseValueMGo : List Char → Nat → Int × List Char
  | [], _ => (0, [])
  | c :: rest, i =>
    if c = '=' then (Int.ofNat (i + 1), nulChar :: rest)
    else if isAlnumUnd c = false then (-1, c :: rest)
    else if 1024 < i + 1 then (-1, c :: rest)
    else
      let r := parseValueMGo rest (i + 1)
      (r.1, c :: r.2)

/-- `parse_value` together with the mutated buffer (the argument string is
the list of characters strictly before the terminating NUL). -/
def parseValueM (s : List Char) : Int × List Char :=
  parseValueMGo s 0

/-- The return value of `parse_value`. -/
def parseValue (s : List Char) : Int :=
  (parseValueM s).1

/-- The C string read from a (possibly mutated) buffer: characters up to
the first NUL. -/
def cstr (l : List Char) : List Char :=
  l.takeWhile (fun c => c ≠ nulChar)

/-- Embedding of the `-D` handler of `main` (src/src/main.c lines 119-130,
src/src/cjit.c lines 166-177): run `parse_value` on the argument buffer;
on 0 define the buffer's C string as a symbol with no value, on a positive
result `r` define it with value `&arg[r]`, on a negative result report the
error and exit 1 (modelled as `none`). -/
def defineOfArg (s : List Char) : Option (List Char × Option (List Char)) :=
  let r := parseValueM s
  if r.1 = 0 then some (cstr r.2, none)
  else if 0 < r.1 then some (cstr r.2, some (cstr (r.2.drop r.1.toNat)))
  else none

example : parseValue "key=value=extra".toList = 4 := by decide
example : parseValue "".toList = 0 := by decide
example : parseValue "FOO".toList = 0 := by decide
example : parseValue "k ey".toList = -1 := by decide
example : defineOfArg "key=value=extra".toList
    = some ("key".toList, some "value=extra".toList) := by decide
example : defineOfArg "FOO=1".toList = some ("FOO".toList, some "1".toList) := by decide

/-- True when the string begins with `-` (the C test `*code_path == '-'`,
src/src/main.c line 255, src/src/cjit.c line 301). -/
def startsDash (s : String) : Bool :=
  s.toList.head? = some '-'

/-- True when the string begins with `--`. -/
def startsDashDash (s : String) : Bool :=
  s.toList.take 2 = ['-', '-']

/-- Split a character list at its first `=` (used for `--name=value` long
options in the modelled scanner). -/
def splitAtEq : List Char → List Char × Option (List Char)
  | [] => ([], none)
  | c :: r =>
    if c = '=' then ([], some r)
    else
      let p := splitAtEq r
      (c :: p.1, p.2)

/-- An option event produced by the modelled `ketopt` scan: a recognised
short or long option with its argument, an unknown option (the `?` case,
reported and skipped), or an option missing its required argument (the `:`
case, reported and skipped). -/
inductive OptTok where
  | short (c : Char) (arg : Option String)
  | long (nm : String) (arg : Option String)
  | unknownShort (c : Char)
  | unknownLong (raw : String)
  | missingArg (c : Char)
  | missingLong (nm : String)
deriving DecidableEq

/-- The option tables of one driver: which short options take a required
argument, which are recognised without argument, and likewise for long
options (from the `ketopt` option string and `ko_longopt_t` table). -/
structure OptTable where
  shortArg : Char → Bool
  shortPlain : Char → Bool
  longArg : String → Bool
  longPlain : String → Bool

/-- Outcome of the option-scanning phase: the recognised option events in
command-line order, the argv elements consumed as options (in order), the
positional arguments, the arguments right of a bare `--`, and whether a
bare `--` was found. -/
structure Scan where
  toks : List OptTok
  optElems : List String
  positionals : List String
  rights : List String
  sep : Bool
deriving DecidableEq

/-- Scan one cluster of short options (the characters of an argv element
after its leading `-`): a recognised argument-taking option either uses
the remaining characters as its argument or, when they are empty, asks the
caller to consume the next argv element (`some c` in the second
component). -/
def scanShorts (tbl : OptTable) : List Char → List OptTok × Option Char
  | [] => ([], none)
  | c :: cs =>
    if tbl.shortArg c then
      if cs.isEmpty then ([], some c)
      else ([OptTok.short c (some (String.mk cs))], none)
    else
      let r := scanShorts tbl cs
      if tbl.shortPlain c then (OptTok.short c none :: r.1, r.2)
      else (OptTok.unknownShort c :: r.1, r.2)

/-- A pending required option argument: the previous argv element was a
recognised short option cluster ending in an argument-taking option, or a
long option without an attached `=value`, so the next argv element is
consumed verbatim as that option's argument. -/
inductive Pend where
  | pshort (c : Char)
  | plong (nm : String)
deriving DecidableEq

/-- The option event produced when a pending option receives the next
argv element as its argument. -/
def pendTok (p : Pend) (a : String) : OptTok :=
  match p with
  | Pend.pshort c => OptTok.short c (some a)
  | Pend.plong nm => OptTok.long nm (some a)

/-- The option event produced when the argument vector ends while an
option still awaits its required argument (the `ketopt` `:` case). -/
def pendMiss (p : Pend) : OptTok :=
  match p with
  | Pend.pshort c => OptTok.missingArg c
  | Pend.plong nm => OptTok.missingLong nm

/-- Modelled from the spec: the vendored `ketopt` option scanner
(`ketopt.h`, not under src/). Per spec §4.1 it consumes the argument
vector, recognising short and long options (argument either attached or
taken from the next element), permuting positional arguments past the
options, and "a bare `--` terminates option scanning and marks the
separator index used later for argument partitioning". After the scan the
effective argv layout is: the consumed option elements, then (when a
separator was found) the `--`, then the positional arguments, then the
arguments right of the separator, with `opt.ind` the index of the first
positional argument. An element is positional exactly when it does not
start with `-` or is the bare `-`. -/
def scanGo (tbl : OptTable) : Option Pend → List String → Scan
  | some p, [] => ⟨[pendMiss p], [], [], [], false⟩
  | some p, a :: rest =>
    let s := scanGo tbl none rest
    ⟨pendTok p a :: s.toks, a :: s.optElems, s.positionals, s.rights, s.sep⟩
  | none, [] => ⟨[], [], [], [], false⟩
  | none, a :: rest =>
    if a = "--" then ⟨[], [], [], rest, true⟩
    else if startsDashDash a then
      let pr := splitAtEq (a.toList.drop 2)
      let nm := String.mk pr.1
      if tbl.longPlain nm then
        let s := scanGo tbl none rest
        ⟨OptTok.long nm none :: s.toks, a :: s.optElems, s.positionals, s.rights, s.sep⟩
      else if tbl.longArg nm then
        match pr.2 with
        | some v =>
          let s := scanGo tbl none rest
          ⟨OptTok.long nm (some (String.mk v)) :: s.toks, a :: s.optElems,
            s.positionals, s.rights, s.sep⟩
        | none =>
          let s := scanGo tbl (some (Pend.plong nm)) rest
          ⟨s.toks, a :: s.optElems, s.positionals, s.rights, s.sep⟩
      else
        let s := scanGo tbl none rest
        ⟨OptTok.unknownLong a :: s.toks, a :: s.optElems, s.positionals, s.rights, s.sep⟩
    else if startsDash a = true ∧ a ≠ "-" then
      let sh := scanShorts tbl (a.toList.drop 1)
      match sh.2 with
      | none =>
        let s := scanGo tbl none rest
        ⟨sh.1 ++ s.toks, a :: s.optElems, s.positionals, s.rights, s.sep⟩
      | some d =>
        let s := scanGo tbl (some (Pend.pshort d)) rest
        ⟨sh.1 ++ s.toks, a :: s.optElems, s.positionals, s.rights, s.sep⟩
    else
      let s := scanGo tbl none rest
      ⟨s.toks, s.optElems, a :: s.positionals, s.rights, s.sep⟩

/-- The full modelled option scan of an argument vector (no option is
pending at the start). -/
def ketoptScan (tbl : OptTable) (l : List String) : Scan :=
  scanGo tbl none l

/-- Option tables of src/src/main.c line 107: option string
`qhvD:L:l:C:I:e:p:co:f:W:O:gU:ESM:m:` and long options `help`, `temp`,
`xtgz` (the `src` long option is compiled only under SELFHOST, which is
not modelled). -/
def mainTable : OptTable where
  shortArg := fun c => decide (c ∈ ['D', 'L', 'l', 'C', 'I', 'e', 'p', 'o',
    'f', 'W', 'O', 'U', 'M', 'm'])
  shortPlain := fun c => decide (c ∈ ['q', 'h', 'v', 'c', 'g', 'E', 'S'])
  longArg := fun s => decide (s = "xtgz")
  longPlain := fun s => decide (s = "help" ∨ s = "temp")

/-- Option tables of src/src/cjit.c line 150: option string
`hvD:L:l:C:I:e:` and long options `help`, `live`, `tgen`. -/
def oldTable : OptTable where
  shortArg := fun c => decide (c ∈ ['D', 'L', 'l', 'C', 'I', 'e'])
  shortPlain := fun c => decide (c ∈ ['h', 'v'])
  longArg := fun _ => false
  longPlain := fun s => decide (s = "help" ∨ s = "live" ∨ s = "tgen")

example : ketoptScan mainTable ["-q", "f.c", "--", "a", "b"]
    = ⟨[OptTok.short 'q' none], ["-q"], ["f.c"], ["a", "b"], true⟩ := by decide
example : ketoptScan mainTable ["-D", "A=1", "x.c"]
    = ⟨[OptTok.short 'D' (some "A=1")], ["-D", "A=1"], ["x.c"], [], false⟩ := by decide
example : ketoptScan mainTable ["--xtgz", "b.tgz"]
    = ⟨[OptTok.long "xtgz" (some "b.tgz")], ["--xtgz", "b.tgz"], [], [], false⟩ := by decide
example : ketoptScan mainTable ["-DA=1", "-", "f.c"]
    = ⟨[OptTok.short 'D' (some "A=1")], ["-DA=1"], ["-", "f.c"], [], false⟩ := by decide

/-- Externally visible effects of one run of the src/src/main.c driver. -/
inductive Ev where
  | define (key : String) (val : Option String)
  | addFile (path : String)
  | compileStdin
  | compileFile (path : String)
  | emitExe (path : String)
  | exec (argv : List String)
  | extract (dir : String)
  | enterLive
  | freeSession
deriving DecidableEq

/-- Oracles for the external collaborators of src/src/main.c (spec §1:
the JIT compiler, the REPL front end, archive extraction and the
file/path primitives are external, consumed through narrow contracts). -/
structure Env where
  stdinTty : Bool
  loadStdinOk : Bool
  compileOk : Bool
  compileFileOk : Bool
  emitOk : Bool
  execRes : Nat
  fileLoadLen : Option Nat
  cliTtyRes : Nat
deriving DecidableEq

/-- The `CJITState` session fields of src/src/main.c that the driver logic
consults (`TCC_OUTPUT_MEMORY = 1`, `TCC_OUTPUT_EXE = 2`,
`TCC_OUTPUT_OBJ = 3` from libtcc.h). -/
structure Session where
  quiet : Bool
  tccOutput : Nat
  outputFilename : Option String
  entry : String
  writePid : Option String
deriving DecidableEq

/-- Session state as established by `cjit_new` (modelled from the spec:
in-memory output, entry symbol `main`, no output filename, no pid file). -/
def initSession : Session :=
  ⟨false, 1, none, "main", none⟩

/-- Result of a run: the process exit code and the effect trace. -/
structure Run where
  exit : Nat
  trace : List Ev
deriving DecidableEq

/-- Embedding of the option-processing `while (ketopt(...))` loop body of
src/src/main.c lines 107-189, applied to the scanned option events in
order. `-v`, `-h`/`--help` and `--temp` print, free the session and exit
0; an invalid `-D` frees and exits 1; `--xtgz` frees the session, then
`file_load` (modelled by `env.fileLoadLen`) and exits 1 when the archive
cannot be loaded (`none`) or is empty (`some 0`), otherwise extracts into
`.` and exits 0. `-c` selects object output, `-o` sets the output
filename and executable output, `-e` the entry symbol, `-p` the pid file,
`-q` quiet. `-L -l -C -I` forward to the compiler handle and the
tolerated `-f -W -O -g -U -E -S -M -m` are ignored; unknown options and
missing arguments are reported and skipped. -/
def procOpts (env : Env) : List OptTok → Session → List Ev → Except Run (Session × List Ev)
  | [], s, tr => Except.ok (s, tr)
  | OptTok.short c a :: ts, s, tr =>
    let s := if c = 'q' then { s with quiet := true } else s
    if c = 'v' then Except.error ⟨0, tr ++ [Ev.freeSession]⟩
    else if c = 'h' then Except.error ⟨0, tr ++ [Ev.freeSession]⟩
    else if c = 'D' then
      match defineOfArg (a.getD "").toList with
      | none => Except.error ⟨1, tr ++ [Ev.freeSession]⟩
      | some (k, v) =>
        procOpts env ts s (tr ++ [Ev.define (String.mk k) (v.map String.mk)])
    else if c = 'c' then procOpts env ts { s with tccOutput := 3 } tr
    else if c = 'o' then
      procOpts env ts { s with outputFilename := some (a.getD ""), tccOutput := 2 } tr
    else if c = 'e' then procOpts env ts { s with entry := a.getD "" } tr
    else if c = 'p' then procOpts env ts { s with writePid := some (a.getD "") } tr
    else procOpts env ts s tr
  | OptTok.long nm _ :: ts, s, tr =>
    if nm = "help" then Except.error ⟨0, tr ++ [Ev.freeSession]⟩
    else if nm = "temp" then Except.error ⟨0, tr ++ [Ev.freeSession]⟩
    else if nm = "xtgz" then
      match env.fileLoadLen with
      | none => Except.error ⟨1, tr ++ [Ev.freeSession]⟩
      | some 0 => Except.error ⟨1, tr ++ [Ev.freeSession]⟩
      | some (_ + 1) => Except.error ⟨0, tr ++ [Ev.freeSession, Ev.extract "."]⟩
    else procOpts env ts s tr
  | _ :: ts, s, tr => procOpts env ts s tr

/-- The argv layout after the modelled `ketopt` permutation (see
`ketoptScan`): program name, consumed option elements, then the separator
(when present) followed by positionals and right-of-separator arguments,
or just the positionals. -/
def finalArgv (argv : List String) (sc : Scan) : List String :=
  argv.headD "" ::
    (sc.optElems ++ (if sc.sep then "--" :: (sc.positionals ++ sc.rights) else sc.positionals))

/-- Embedding of the file loop of src/src/main.c lines 251-274 over the
argv slice `[opt.ind, left_args)`: an element whose first byte is `-`
reads a script from standard input and compiles it (on a failed read or
failed compilation, `goto endgame` with `res` still 1, modelled as
`Except.error` carrying the trace so far); any other element is handed to
`cjit_add_file`. -/
def batchSlice (env : Env) : List String → List Ev → Except (List Ev) (List Ev)
  | [], tr => Except.ok tr
  | e :: es, tr =>
    if startsDash e then
      if env.loadStdinOk = false then Except.error tr
      else if env.compileOk = false then Except.error (tr ++ [Ev.compileStdin])
      else batchSlice env es (tr ++ [Ev.compileStdin])
    else batchSlice env es (tr ++ [Ev.addFile e])

/-- Embedding of the terminal stage of src/src/main.c lines 277-297: when
an output filename is set, link to that file (`res` 0/1 from
`tcc_output_file`); otherwise compute `right_args = argc-left_args+1` and
`right_argv = &argv[left_args-1]` (lines 290-291) and call `cjit_exec`
(modelled from the spec: `cjit_exec` is not under src/; per spec §4.4 it
relocates and runs the program in an isolated child with the argument
vector it is handed, returning the child's exit status, modelled by
`env.execRes`). -/
def finishRun (env : Env) (s : Session) (tr : List Ev) (fargv : List String)
    (argc leftArgs : Nat) : Run :=
  match s.outputFilename with
  | some f => ⟨if env.emitOk then 0 else 1, tr ++ [Ev.emitExe f, Ev.freeSession]⟩
  | none =>
    let ra := ((argc : Int) - (leftArgs : Int) + 1).toNat
    let pargv := (fargv.drop (leftArgs - 1)).take ra
    ⟨env.execRes, tr ++ [Ev.exec pargv, Ev.freeSession]⟩

/-- Embedding of `main` of src/src/main.c: option processing, the
`argc == 0` live-mode gate (lines 192-205), the three-way branch between
stdin script (lines 213-233), compile-to-object (lines 235-246) and the
file loop (lines 248-275), then the terminal stage and the `endgame`
teardown (`cjit_free`, modelled as the `freeSession` event). -/
def mainDriver (argv : List String) (env : Env) : Run :=
  let sc := ketoptScan mainTable argv.tail
  match procOpts env sc.toks initSession [] with
  | Except.error r => r
  | Except.ok (s, tr) =>
    let argc := argv.length
    if argc = 0 then
      if env.stdinTty = false then ⟨1, tr ++ [Ev.freeSession]⟩
      else ⟨env.cliTtyRes, tr ++ [Ev.enterLive, Ev.freeSession]⟩
    else
      let fargv := finalArgv argv sc
      let ind := 1 + sc.optElems.length + (if sc.sep then 1 else 0)
      let argSeparator := if sc.sep then ind + 1 else 0
      let leftArgs := if argSeparator ≠ 0 then argSeparator else argc
      if argc ≤ ind then
        if env.loadStdinOk = false then ⟨1, tr ++ [Ev.freeSession]⟩
        else if env.compileOk = false then ⟨1, tr ++ [Ev.compileStdin, Ev.freeSession]⟩
        else finishRun env s (tr ++ [Ev.compileStdin]) fargv argc leftArgs
      else if s.tccOutput = 3 then
        if (leftArgs : Int) - (ind : Int) ≠ 1 then ⟨1, tr ++ [Ev.freeSession]⟩
        else
          let f := (fargv.drop ind).headD ""
          ⟨if env.compileFileOk then 0 else 1, tr ++ [Ev.compileFile f, Ev.freeSession]⟩
      else if ind < leftArgs then
        let slice := (fargv.drop ind).take (leftArgs - ind)
        match batchSlice env slice tr with
        | Except.error tr2 => ⟨1, tr2 ++ [Ev.freeSession]⟩
        | Except.ok tr2 => finishRun env s tr2 fargv argc leftArgs
      else finishRun env s tr fargv argc leftArgs

/-- The argument vector handed to the executed program in a run, when the
run executed one. -/
def execArgvOf (r : Run) : Option (List String) :=
  r.trace.findSome? fun e =>
    match e with
    | Ev.exec a => some a
    | _ => none

/-- A benign environment: stdin is piped and readable, every compilation
and emission succeeds, the executed program returns 0. -/
def envStd : Env :=
  ⟨false, true, true, true, true, 0, none, 0⟩

example : mainDriver ["cjit", "f.c", "--", "a", "b"] envStd
    = ⟨0, [Ev.addFile "f.c", Ev.exec ["f.c", "a", "b"], Ev.freeSession]⟩ := by decide
example : mainDriver ["cjit", "f1.c", "f2.c", "--", "x"] envStd
    = ⟨0, [Ev.addFile "f1.c", Ev.exec ["f1.c", "f2.c", "x"], Ev.freeSession]⟩ := by decide
example : mainDriver ["cjit", "f1.c", "f2.c"] envStd
    = ⟨0, [Ev.addFile "f1.c", Ev.addFile "f2.c", Ev.exec ["f2.c"], Ev.freeSession]⟩ := by
  decide
example : mainDriver ["cjit"] envStd
    = ⟨0, [Ev.compileStdin, Ev.exec ["cjit"], Ev.freeSession]⟩ := by decide
example : mainDriver [] { envStd with stdinTty := true }
    = ⟨0, [Ev.enterLive, Ev.freeSession]⟩ := by decide
example : mainDriver ["cjit", "-c", "a.c", "b.c"] envStd
    = ⟨1, [Ev.freeSession]⟩ := by decide
example : mainDriver ["cjit", "-c", "a.c"] envStd
    = ⟨0, [Ev.compileFile "a.c", Ev.freeSession]⟩ := by decide
example : mainDriver ["cjit", "--xtgz", "b.tgz"] { envStd with fileLoadLen := some 7 }
    = ⟨0, [Ev.freeSession, Ev.extract "."]⟩ := by decide
example : mainDriver ["cjit", "--xtgz", "b.tgz"] envStd = ⟨1, [Ev.freeSession]⟩ := by decide
example : mainDriver ["cjit", "-o", "out", "t.c"] envStd
    = ⟨0, [Ev.addFile "t.c", Ev.emitExe "out", Ev.freeSession]⟩ := by decide
example : mainDriver ["cjit", "-D", "key=value=extra", "f.c"] envStd
    = ⟨0, [Ev.define "key" (some "value=extra"), Ev.addFile "f.c",
           Ev.exec ["f.c"], Ev.freeSession]⟩ := by decide

/-- Oracles for the external collaborators of src/src/cjit.c: `tcc_new`,
`append_path`/`prepend_path`, `mkdtemp`, `gen_exec_headers`, `isatty`,
`load_stdin`, `tcc_compile_string`, `tcc_relocate`, `cjit_exec_fork` and
`cjit_cli_tty` (spec §1 external collaborators and path primitives). -/
structure Env4 where
  tccNewOk : Bool
  appendOk : Bool
  mkdtempOk : Bool
  prependOk : Bool
  genHeadersOk : Bool
  stdinTty : Bool
  loadStdinOk : Bool
  compileOk : Bool
  relocOk : Bool
  execRes : Nat
  cliTtyRes : Nat
deriving DecidableEq

/-- Result of a run of the src/src/cjit.c driver, tracking the lifecycle
of the temporary execution directory: whether a `mkdtemp` call created it
and how many times `rm_recursive` was called on it. -/
structure Run4 where
  exit : Nat
  tmpdirCreated : Bool
  tmpdirRemoved : Nat
  tookTgen : Bool
deriving DecidableEq

/-- Embedding of the option loop of src/src/cjit.c lines 150-216. `-v`
and `-h`/`--help` delete the compiler handle and exit 0; an invalid `-D`
exits 1; a failed `append_path` for `-L` exits 1; `--live` sets live
mode; `--tgen` (lines 200-209) calls `mkdtemp` and `gen_exec_headers`,
prints the directory and exits 0 *without* calling `rm_recursive` — the
directory it created stays on disk. All of these happen before the
post-loop `mkdtemp` of line 222, so every other early exit leaves no
temporary directory. -/
def procOpts4 (env : Env4) : List OptTok → Bool → Except Run4 Bool
  | [], live => Except.ok live
  | OptTok.short c a :: ts, live =>
    if c = 'v' then Except.error ⟨0, false, 0, false⟩
    else if c = 'h' then Except.error ⟨0, false, 0, false⟩
    else if c = 'D' then
      match defineOfArg (a.getD "").toList with
      | none => Except.error ⟨1, false, 0, false⟩
      | some _ => procOpts4 env ts live
    else if c = 'L' then
      if env.appendOk then procOpts4 env ts live
      else Except.error ⟨1, false, 0, false⟩
    else procOpts4 env ts live
  | OptTok.long nm _ :: ts, live =>
    if nm = "help" then Except.error ⟨0, false, 0, false⟩
    else if nm = "live" then procOpts4 env ts true
    else if nm = "tgen" then Except.error ⟨0, env.mkdtempOk, 0, true⟩
    else procOpts4 env ts live
  | OptTok.unknownShort _ :: ts, live => procOpts4 env ts live
  | OptTok.unknownLong _ :: ts, live => procOpts4 env ts live
  | OptTok.missingArg _ :: ts, live => procOpts4 env ts live
  | OptTok.missingLong _ :: ts, live => procOpts4 env ts live

/-- Embedding of the file loop of src/src/cjit.c lines 297-317: a leading
`-` reads a script from stdin; a *failed* read only reports and the loop
continues (lines 306-308), a failed compilation jumps to `endgame`
(modelled as `some 1`); other elements go to `tcc_add_file`. `none` means
the loop completed and control continues to relocation. -/
def batchSlice4 (env : Env4) : List String → Option Nat
  | [] => none
  | e :: es =>
    if startsDash e then
      if env.loadStdinOk = false then batchSlice4 env es
      else if env.compileOk = false then some 1
      else batchSlice4 env es
    else batchSlice4 env es

/-- Embedding of src/src/cjit.c lines 257-334: the code that runs between
the successful temp-dir setup and `endgame`, returning the value `res`
has when `endgame` is reached. Covers the `argc == 0` live gate, live
mode (tty required), the stdin-script branch (lines 278-293), the file
loop, relocation and `cjit_exec_fork` (lines 322-334). -/
def oldPostRes (env : Env4) (argv : List String) (sc : Scan) (live : Bool) : Nat :=
  let argc := argv.length
  let live := if argc = 0 then true else live
  if live then
    if env.stdinTty = false then 1 else env.cliTtyRes
  else
    let ind := 1 + sc.optElems.length + (if sc.sep then 1 else 0)
    let argSeparator := if sc.sep then ind + 1 else 0
    let leftArgs := if argSeparator ≠ 0 then argSeparator else argc
    let afterIngest :=
      if argc ≤ ind then
        if env.loadStdinOk = false then some 1
        else if env.compileOk = false then some 1
        else none
      else if ind < leftArgs then
        let fargv := finalArgv argv sc
        batchSlice4 env ((fargv.drop ind).take (leftArgs - ind))
      else none
    match afterIngest with
    | some r => r
    | none => if env.relocOk = false then 1 else env.execRes

/-- Embedding of `main` of src/src/cjit.c: `tcc_new` (exit 1 on failure),
the option loop, then the temp-dir setup of lines 221-255 (`mkdtemp`,
`prepend_path` twice, `gen_exec_headers`, each failure jumping to
`endgame`), the post-setup phases, and the `endgame` teardown of lines
336-343, which calls `rm_recursive(tmpdir)` exactly when `tmpdir` is
non-NULL. -/
def oldDriver (argv : List String) (env : Env4) : Run4 :=
  if env.tccNewOk = false then ⟨1, false, 0, false⟩
  else
    let sc := ketoptScan oldTable argv.tail
    match procOpts4 env sc.toks false with
    | Except.error r => r
    | Except.ok live =>
      if env.mkdtempOk = false then ⟨1, false, 0, false⟩
      else if env.prependOk = false then ⟨1, true, 1, false⟩
      else if env.genHeadersOk = false then ⟨1, true, 1, false⟩
      else ⟨oldPostRes env argv sc live, true, 1, false⟩

/-- A benign environment for the src/src/cjit.c driver. -/
def env4Ok : Env4 :=
  ⟨true, true, true, true, true, false, true, true, true, 0, 0⟩

example : oldDriver ["cjit", "--tgen"] env4Ok = ⟨0, true, 0, true⟩ := by decide
example : oldDriver ["cjit", "f.c"] env4Ok = ⟨0, true, 1, false⟩ := by decide
example : oldDriver ["cjit", "-v"] env4Ok = ⟨0, false, 0, false⟩ := by decide
example : oldDriver [] { env4Ok with stdinTty := true } = ⟨0, true, 1, false⟩ := by decide
example : oldDriver ["cjit", "--live"] env4Ok = ⟨1, true, 1, false⟩ := by decide

lemma isAlnumUnd_ne_eqch {c : Char} (h : isAlnumUnd c = true) : c ≠ '=' := by
  intro e
  subst e
  exact absurd h (by decide)

lemma isAlnumUnd_ne_nul {c : Char} (h : isAlnumUnd c = true) : c ≠ nulChar := by
  intro e
  subst e
  exact absurd h (by decide)

lemma parseValueMGo_keyrun (key : List Char) :
    ∀ (i : Nat) (value : List Char), (∀ c ∈ key, isAlnumUnd c = true) →
    i + key.length ≤ 1024 →
    parseValueMGo (key ++ '=' :: value) i
      = (Int.ofNat (i + key.length + 1), key ++ nulChar :: value) := by
  induction key with
  | nil =>
    intro i value _ _
    simp [parseValueMGo]
  | cons c key ih =>
    intro i value hal hlen
    have hc : isAlnumUnd c = true := hal c (List.mem_cons_self c key)
    have hne : ¬ (c = '=') := isAlnumUnd_ne_eqch hc
    have hlen2 : ¬ (1024 < i + 1) := by
      simp only [List.length_cons] at hlen
      omega
    have ih' := ih (i + 1) value (fun d hd => hal d (List.mem_cons_of_mem c hd)) (by
      simp only [List.length_cons] at hlen ⊢
      omega)
    have hco : Int.ofNat (i + 1 + key.length + 1) = Int.ofNat (i + (c :: key).length + 1) := by
      simp only [List.length_cons]
      congr 1
      omega
    calc parseValueMGo ((c :: key) ++ '=' :: value) i
        = ((parseValueMGo (key ++ '=' :: value) (i + 1)).1,
            c :: (parseValueMGo (key ++ '=' :: value) (i + 1)).2) := by
          simp only [List.cons_append, parseValueMGo, if_neg hne, hc,
            Bool.true_eq_false, if_false, if_neg hlen2, List.append_eq]
      _ = (Int.ofNat (i + (c :: key).length + 1), (c :: key) ++ nulChar :: value) := by
          rw [ih', hco]
          rfl

lemma cstr_cons_ne (c : Char) (l : List Char) (h : c ≠ nulChar) :
    cstr (c :: l) = c :: cstr l := by
  simp [cstr, List.takeWhile_cons, h]

lemma cstr_nul_cons (l : List Char) : cstr (nulChar :: l) = [] := by
  simp [cstr, List.takeWhile_cons]

lemma cstr_append_nul (key value : List Char) (h : ∀ c ∈ key, c ≠ nulChar) :
    cstr (key ++ nulChar :: value) = key := by
  induction key with
  | nil => simpa using cstr_nul_cons value
  | cons c key ih =>
    have hc : c ≠ nulChar := h c (List.mem_cons_self c key)
    have ih' := ih (fun d hd => h d (List.mem_cons_of_mem c hd))
    rw [List.cons_append, cstr_cons_ne c _ hc, ih']

lemma cstr_of_no_nul (value : List Char) (h : nulChar ∉ value) : cstr value = value := by
  induction value with
  | nil => rfl
  | cons c value ih =>
    have hc : c ≠ nulChar := by
      intro e
      rw [e] at h
      exact h (List.mem_cons_self _ _)
    rw [cstr_cons_ne c _ hc, ih (fun hm => h (List.mem_cons_of_mem c hm))]

lemma drop_keylen (key value : List Char) :
    (key ++ nulChar :: value).drop (key.length + 1) = value := by
  have : key ++ nulChar :: value = (key ++ [nulChar]) ++ value := by simp
  rw [this]
  have hl : (key ++ [nulChar]).length = key.length + 1 := by simp
  rw [← hl, List.drop_left]

/-- Claim C3: for a `-D` argument with two `=` characters, option parsing
is claimed to fail with a non-zero exit. The code accepts it: because the
`=` branch of `parse_value` overwrites the `=` with NUL and `continue`s
without advancing `i`, the loop exits at once, the guarded
`return -1 /* can't include equal twice */` is unreachable, and
`key=value=extra` yields return value 4 with the symbol defined as
`key` = `value=extra`; the driver then proceeds normally (exit 0 in a
benign environment) instead of exiting 1. -/
theorem claim_C3 :
    parseValue "key=value=extra".toList = 4 ∧
    defineOfArg "key=value=extra".toList
      = some ("key".toList, some "value=extra".toList) ∧
    (mainDriver ["cjit", "-D", "key=value=extra", "f.c"] envStd).exit = 0 ∧
    Ev.define "key" (some "value=extra")
      ∈ (mainDriver ["cjit", "-D", "key=value=extra", "f.c"] envStd).trace := by
  refine ⟨by decide, by decide, by decide, by decide⟩

/-- Claim C5: for a valid `-D key=value` argument (key of
alphanumerics/underscore within the 1024-character limit, split at the
one `=`), `parse_value` returns the value position, the buffer after the
call differs from the argument only in that the `=` has been replaced by
a NUL terminator, and the `-D` handler defines exactly that key with
exactly that value. -/
theorem claim_C5 (key value : List Char)
    (hk : ∀ c ∈ key, isAlnumUnd c = true)
    (hlen : key.length ≤ 1024)
    (hv : nulChar ∉ value) :
    parseValueM (key ++ '=' :: value)
      = (Int.ofNat (key.length + 1), key ++ nulChar :: value) ∧
    defineOfArg (key ++ '=' :: value) = some (key, some value) := by
  have hrun := parseValueMGo_keyrun key 0 value hk (by omega)
  have hm : parseValueM (key ++ '=' :: value)
      = (Int.ofNat (key.length + 1), key ++ nulChar :: value) := by
    rw [parseValueM, hrun]
    rw [show (0 : Nat) + key.length = key.length from by omega]
  refine ⟨hm, ?_⟩
  have hknul : ∀ c ∈ key, c ≠ nulChar := fun c hc => isAlnumUnd_ne_nul (hk c hc)
  have h0 : ¬ (Int.ofNat (key.length + 1) = 0) :=
    fun h => Nat.succ_ne_zero _ (Int.ofNat.inj h)
  have hpos : (0 : Int) < Int.ofNat (key.length + 1) :=
    Int.ofNat_lt.mpr (Nat.succ_pos _)
  simp only [defineOfArg, hm, if_neg h0, if_pos hpos]
  rw [show (Int.ofNat (key.length + 1)).toNat = key.length + 1 from rfl]
  rw [cstr_append_nul key value hknul, drop_keylen,
    cstr_of_no_nul value hv]

/-- Witness for claim C5 at the concrete argument `FOO=1`. -/
theorem claim_C5_witness :
    (∀ c ∈ "FOO".toList, isAlnumUnd c = true) ∧ "FOO".toList.length ≤ 1024 ∧
    nulChar ∉ "1".toList ∧
    defineOfArg ("FOO".toList ++ '=' :: "1".toList)
      = some ("FOO".toList, some "1".toList) :=
  ⟨by decide, by decide, by decide,
    (claim_C5 "FOO".toList "1".toList (by decide) (by decide) (by decide)).2⟩

lemma defineOfArg_keq (w : List Char) (hw : nulChar ∉ w) :
    defineOfArg ('k' :: '=' :: w) = some (['k'], some w) := by
  have hrun := parseValueMGo_keyrun ['k'] 0 w (by decide) (by decide)
  have hm : parseValueM ('k' :: '=' :: w) = (Int.ofNat 2, 'k' :: nulChar :: w) := by
    rw [show ('k' :: '=' :: w) = ['k'] ++ '=' :: w from rfl, parseValueM, hrun]
    rfl
  have h0 : ¬ (Int.ofNat 2 = 0) := by decide
  have hpos : (0 : Int) < Int.ofNat 2 := by decide
  simp only [defineOfArg, hm, if_neg h0, if_pos hpos]
  rw [show (Int.ofNat 2).toNat = 2 from rfl]
  rw [show ('k' :: nulChar :: w).drop 2 = w from rfl]
  rw [show ('k' :: nulChar :: w) = ['k'] ++ nulChar :: w from rfl,
    cstr_append_nul ['k'] _ (by decide), cstr_of_no_nul w hw]

/-- Claim C9 counterexample: a `-D` argument whose key/value combination
is 1102 characters long (well over the 1024 limit) is *accepted*:
`parse_value` stops scanning at the first `=`, so the value is never
length-checked and the symbol is defined. -/
theorem claim_C9_counterexample :
    1024 < ('k' :: '=' :: List.replicate 1100 'v').length ∧
    parseValue ('k' :: '=' :: List.replicate 1100 'v') = 2 ∧
    defineOfArg ('k' :: '=' :: List.replicate 1100 'v')
      = some (['k'], some (List.replicate 1100 'v')) := by
  have h1 : nulChar ∉ List.replicate 1100 'v' := by
    intro h
    exact absurd (List.eq_of_mem_replicate h) (by decide)
  refine ⟨?_, by decide, defineOfArg_keq _ h1⟩
  rw [List.length_cons, List.length_cons, List.length_replicate]
  omega

lemma parseValueMGo_longkey :
    ∀ (n i : Nat) (rest : List Char), i + n = 1025 → 1 ≤ n →
    parseValueMGo (List.replicate n 'a' ++ rest) i
      = (-1, List.replicate n 'a' ++ rest) := by
  intro n
  induction n with
  | zero => omega
  | succ m ih =>
    intro i rest hsum _
    rw [List.replicate_succ, List.cons_append]
    by_cases hm : m = 0
    · subst hm
      have hi : i = 1024 := by omega
      subst hi
      simp [parseValueMGo, isAlnumUnd]
    · have ih' := ih (i + 1) rest (by omega) (by omega)
      have hlt : ¬ (1024 < i + 1) := by omega
      simp only [parseValueMGo, if_neg (show ¬ ('a' = '=') by decide),
        if_neg (show ¬ (isAlnumUnd 'a' = false) by decide), if_neg hlt, ih']

set_option maxRecDepth 10000 in
/-- Claim C9, amended: only the portion of a `-D` argument scanned before
the first `=` (the key, or the whole argument when no `=` occurs) is
subject to the 1024-character limit. An argument whose first 1025
characters are alphanumeric is rejected by `parse_value` (return -1) and
the invocation exits 1; the value after the first `=` is never
length-checked (see the counterexample). -/
theorem claim_C9 (v : List Char) :
    parseValue (List.replicate 1025 'a' ++ v) = -1 ∧
    mainDriver ["cjit", "-D", String.mk (List.replicate 1025 'a')] envStd
      = ⟨1, [Ev.freeSession]⟩ := by
  constructor
  · rw [parseValue, parseValueM, parseValueMGo_longkey 1025 0 v (by omega) (by omega)]
  · decide

/-- Claim C10: a `-D` with an empty argument is accepted: `parse_value`
returns 0 and the driver defines a macro with empty name and no value
instead of rejecting the argument. -/
theorem claim_C10 :
    parseValue [] = 0 ∧
    defineOfArg [] = some ([], none) ∧
    Ev.define "" none ∈ (mainDriver ["cjit", "-D", ""] envStd).trace ∧
    (mainDriver ["cjit", "-D", ""] envStd).exit = 0 := by
  refine ⟨by decide, by decide, by decide, by decide⟩

/-- Claim C2 (code bug): with no positional file arguments, the claim
says a terminal stdin enters live mode and a non-terminal stdin is read
and compiled. In src/src/main.c live mode is gated by `argc == 0` (line
193), which a real invocation (whose argv contains at least the program
name) never satisfies, so `cjit` run at a terminal with no files reads
code from the terminal's stdin instead of entering live mode; only the
unreachable empty argument vector enters live mode, and with the empty
argument vector and a non-terminal stdin the run fails without reading
stdin instead of compiling it. -/
theorem claim_C2 :
    (Ev.enterLive ∉ (mainDriver ["cjit"] { envStd with stdinTty := true }).trace ∧
      Ev.compileStdin ∈ (mainDriver ["cjit"] { envStd with stdinTty := true }).trace) ∧
    Ev.enterLive ∈ (mainDriver [] { envStd with stdinTty := true }).trace ∧
    (mainDriver [] envStd = ⟨1, [Ev.freeSession]⟩) := by
  refine ⟨⟨by decide, by decide⟩, by decide, by decide⟩

lemma startsDash_of_dd (a : String) (h : startsDashDash a = true) : startsDash a = true := by
  simp only [startsDashDash, decide_eq_true_eq] at h
  simp only [startsDash, decide_eq_true_eq]
  cases hl : a.toList with
  | nil =>
    rw [hl] at h
    exact absurd h (by decide)
  | cons c cs =>
    rw [hl] at h
    cases hc : cs with
    | nil =>
      rw [hc] at h
      simp only [List.take_succ_cons, List.take_nil] at h
      have hL := congrArg List.length h
      simp only [List.length_cons, List.length_nil] at hL
      omega
    | cons d ds =>
      rw [hc] at h
      simp only [List.take_succ_cons, List.take_zero, List.cons.injEq, and_true] at h
      rw [List.head?_cons, h.1]

lemma ketoptScan_sep (tbl : OptTable) (rest : List String) :
    ketoptScan tbl ("--" :: rest) = ⟨[], [], [], rest, true⟩ := by
  simp only [ketoptScan]
  rw [scanGo, if_pos rfl]

lemma ketoptScan_posArg (tbl : OptTable) (a : String) (rest : List String)
    (h : startsDash a = false ∨ a = "-") :
    ketoptScan tbl (a :: rest)
      = ⟨(ketoptScan tbl rest).toks, (ketoptScan tbl rest).optElems,
          a :: (ketoptScan tbl rest).positionals, (ketoptScan tbl rest).rights,
          (ketoptScan tbl rest).sep⟩ := by
  have h1 : ¬ (a = "--") := by
    rcases h with h | h
    · intro e
      rw [e] at h
      exact absurd h (by decide)
    · intro e
      rw [h] at e
      exact absurd e (by decide)
  have h2 : ¬ (startsDashDash a = true) := by
    rcases h with h | h
    · intro e
      rw [startsDash_of_dd a e] at h
      exact absurd h (by decide)
    · rw [h]
      decide
  have h3 : ¬ (startsDash a = true ∧ a ≠ "-") := by
    rcases h with h | h
    · intro e
      rw [h] at e
      exact absurd e.1 (by decide)
    · intro e
      exact e.2 h
  simp only [ketoptScan]
  rw [scanGo, if_neg h1, if_neg h2, if_neg h3]

lemma ketoptScan_posList (tbl : OptTable) (fs : List String)
    (h : ∀ f ∈ fs, startsDash f = false ∨ f = "-") :
    ketoptScan tbl fs = ⟨[], [], fs, [], false⟩ := by
  induction fs with
  | nil => rfl
  | cons f fs ih =>
    rw [ketoptScan_posArg tbl f fs (h f (List.mem_cons_self f fs)),
      ih (fun g hg => h g (List.mem_cons_of_mem f hg))]

lemma ketoptScan_dashc (rest : List String) :
    ketoptScan mainTable ("-c" :: rest)
      = ⟨OptTok.short 'c' none :: (ketoptScan mainTable rest).toks,
         "-c" :: (ketoptScan mainTable rest).optElems,
         (ketoptScan mainTable rest).positionals,
         (ketoptScan mainTable rest).rights,
         (ketoptScan mainTable rest).sep⟩ := by
  simp only [ketoptScan]
  rw [scanGo, if_neg (by decide : ¬ (("-c" : String) = "--")),
    if_neg (by decide : ¬ (startsDashDash "-c" = true)),
    if_pos (⟨by decide, by decide⟩ : startsDash "-c" = true ∧ ("-c" : String) ≠ "-")]
  rfl

lemma batchSlice_ok (env : Env) (hload : env.loadStdinOk = true)
    (hcomp : env.compileOk = true) :
    ∀ (fs : List String) (tr : List Ev),
    (∀ f ∈ fs, startsDash f = false ∨ f = "-") →
    batchSlice env fs tr
      = Except.ok
          (tr ++ fs.map (fun f => if f = "-" then Ev.compileStdin else Ev.addFile f)) := by
  intro fs
  induction fs with
  | nil =>
    intro tr _
    simp [batchSlice]
  | cons f fs ih =>
    intro tr h
    rcases h f (List.mem_cons_self f fs) with hf | hf
    · have hne : ¬ (f = "-") := by
        intro e
        rw [e] at hf
        exact absurd hf (by decide)
      rw [batchSlice, if_neg (by rw [hf]; decide),
        ih (tr ++ [Ev.addFile f]) (fun g hg => h g (List.mem_cons_of_mem f hg))]
      simp [hne]
    · rw [batchSlice, if_pos (by rw [hf]; decide), if_neg (by rw [hload]; decide),
        if_neg (by rw [hcomp]; decide),
        ih (tr ++ [Ev.compileStdin]) (fun g hg => h g (List.mem_cons_of_mem f hg))]
      simp [hf]

/-- Claim C1 counterexample: with two positional source files and a `--`
separator (`cjit f1.c f2.c -- x`), the executed program's argument vector
is `["f1.c", "f2.c", "x"]`: the arguments beyond argv[0] are *not*
exactly the arguments right of the separator — the second source file
leaks into them (and only `f1.c` is compiled; see claim C7). -/
theorem claim_C1_counterexample :
    execArgvOf (mainDriver ["cjit", "f1.c", "f2.c", "--", "x"] envStd)
      = some ["f1.c", "f2.c", "x"] ∧
    (execArgvOf (mainDriver ["cjit", "f1.c", "f2.c", "--", "x"] envStd)).map
        (fun l => l.drop 1) ≠ some ["x"] := by
  refine ⟨by decide, by decide⟩

/-- Claim C1, amended: with at most one positional file argument the
partition behaves as claimed: for a single source file left of `--` the
program's argument vector is that source path (as argv[0], spec §4.4 "or
first source path") followed by exactly the arguments right of the
separator, and with no separator the program receives a single-element
argument vector (no arguments beyond argv[0]). With several positional
files and a separator, the extra files are forwarded to the program as
well (see the counterexample). -/
theorem claim_C1 (f : String) (rights : List String) (env : Env)
    (hf : startsDash f = false) :
    mainDriver ("cjit" :: f :: "--" :: rights) env
      = ⟨env.execRes, [Ev.addFile f, Ev.exec (f :: rights), Ev.freeSession]⟩ ∧
    mainDriver ["cjit", f] env
      = ⟨env.execRes, [Ev.addFile f, Ev.exec [f], Ev.freeSession]⟩ := by
  have hfne : ¬ (startsDash f = true) := by
    rw [hf]
    exact Bool.false_ne_true
  constructor
  · have hscan : ketoptScan mainTable (f :: "--" :: rights)
        = ⟨[], [], [f], rights, true⟩ := by
      rw [ketoptScan_posArg mainTable f _ (Or.inl hf), ketoptScan_sep]
    simp [mainDriver, List.tail_cons, hscan, procOpts, finalArgv, initSession,
      finishRun, batchSlice, hf,
      show ¬ (rights.length + 3 = 0) from by omega,
      show ¬ (rights.length + 3 ≤ 2) from by omega,
      show ((rights.length : Int) + 1).toNat = rights.length + 1 from by omega]
    omega
  · have hscan2 : ketoptScan mainTable [f] = ⟨[], [], [f], [], false⟩ := by
      rw [ketoptScan_posArg mainTable f [] (Or.inl hf)]
      rfl
    simp [mainDriver, List.tail_cons, hscan2, procOpts, finalArgv, initSession,
      finishRun, batchSlice, hf]

/-- Witness for the amended claim C1 at `cjit prog.c -- a b` and
`cjit prog.c`. -/
theorem claim_C1_witness :
    startsDash "prog.c" = false ∧
    mainDriver ["cjit", "prog.c", "--", "a", "b"] envStd
      = ⟨0, [Ev.addFile "prog.c", Ev.exec ["prog.c", "a", "b"], Ev.freeSession]⟩ ∧
    mainDriver ["cjit", "prog.c"] envStd
      = ⟨0, [Ev.addFile "prog.c", Ev.exec ["prog.c"], Ev.freeSession]⟩ :=
  ⟨by decide, (claim_C1 "prog.c" ["a", "b"] envStd (by decide)).1,
    (claim_C1 "prog.c" ["a", "b"] envStd (by decide)).2⟩

/-- Claim C6 counterexample: `-c` with two positional source files but a
trailing `--` separator does *not* fail: the count check of
src/src/main.c line 238 sees `left_args - opt.ind == 1` whenever a
separator is present, so the first file is compiled and the run exits 0. -/
theorem claim_C6_counterexample :
    Ev.compileFile "f1.c"
      ∈ (mainDriver ["cjit", "-c", "f1.c", "f2.c", "--"] envStd).trace ∧
    (mainDriver ["cjit", "-c", "f1.c", "f2.c", "--"] envStd).exit = 0 := by
  refine ⟨by decide, by decide⟩

/-- Claim C6, amended: `-c` with more than one positional source file
*and no `--` separator* fails with a reported error and exit code 1,
without invoking the compiler on any file (the whole effect trace is the
final teardown); with a separator present the count check always sees one
argument (see the counterexample). -/
theorem claim_C6 (files : List String) (env : Env)
    (hfs : ∀ f ∈ files, startsDash f = false)
    (h2 : 2 ≤ files.length) :
    mainDriver ("cjit" :: "-c" :: files) env = ⟨1, [Ev.freeSession]⟩ := by
  have hscan : ketoptScan mainTable ("-c" :: files)
      = ⟨[OptTok.short 'c' none], ["-c"], files, [], false⟩ := by
    rw [ketoptScan_dashc,
      ketoptScan_posList mainTable files (fun f hf => Or.inl (hfs f hf))]
  rw [mainDriver, List.tail_cons, hscan]
  simp [procOpts, initSession, finalArgv, finishRun,
    show ¬ (files.length + 2 = 0) from by omega,
    show ¬ (files.length + 2 ≤ 2) from by omega]
  omega

/-- Witness for the amended claim C6 at `cjit -c a.c b.c`. -/
theorem claim_C6_witness :
    (∀ f ∈ ["a.c", "b.c"], startsDash f = false) ∧
    2 ≤ (["a.c", "b.c"] : List String).length ∧
    mainDriver ["cjit", "-c", "a.c", "b.c"] envStd = ⟨1, [Ev.freeSession]⟩ :=
  ⟨by decide, by decide, claim_C6 ["a.c", "b.c"] envStd (by decide) (by decide)⟩

/-- Claim C7 counterexample: with a `--` separator present, the file loop
of src/src/main.c lines 251-274 runs over `[opt.ind, left_args)` where
`left_args = opt.ind + 1`, so only the *first* positional argument is
processed: in `cjit f1.c f2.c --`, `f2.c` is never added to the compiler
handle (and no stdin script is read for it either). -/
theorem claim_C7_counterexample :
    Ev.addFile "f2.c" ∉ (mainDriver ["cjit", "f1.c", "f2.c", "--"] envStd).trace ∧
    Ev.compileStdin ∉ (mainDriver ["cjit", "f1.c", "f2.c", "--"] envStd).trace ∧
    Ev.addFile "f1.c" ∈ (mainDriver ["cjit", "f1.c", "f2.c", "--"] envStd).trace := by
  refine ⟨by decide, by decide, by decide⟩

/-- Claim C7, amended: when *no* separator is present, the file loop
processes every positional argument in order exactly as claimed: an
argument that is exactly `-` reads one script body from standard input
and compiles it at that position, and any other argument is added to the
compiler handle; when a separator is present only the first positional is
processed (see the counterexample). -/
theorem claim_C7 (files : List String) (env : Env)
    (hfs : ∀ f ∈ files, startsDash f = false ∨ f = "-")
    (hne : files ≠ [])
    (hload : env.loadStdinOk = true) (hcomp : env.compileOk = true) :
    (mainDriver ("cjit" :: files) env).trace
      = files.map (fun f => if f = "-" then Ev.compileStdin else Ev.addFile f)
        ++ [Ev.exec [files.getLast hne], Ev.freeSession] := by
  have hl : 0 < files.length := List.length_pos.mpr hne
  have hscan : ketoptScan mainTable files = ⟨[], [], files, [], false⟩ :=
    ketoptScan_posList mainTable files hfs
  have hbatch := batchSlice_ok env hload hcomp files [] hfs
  simp [mainDriver, List.tail_cons, hscan, procOpts, initSession, finalArgv,
    finishRun, hbatch, hl,
    show ¬ (files.length + 1 = 0) from by omega,
    show ¬ (files.length + 1 ≤ 1) from by omega,
    show ((files.length : Int) + 1 - (files.length + 1 : Nat) + 1).toNat = 1 from by omega,
    List.drop_length_cons hne "cjit"]

/-- Witness for the amended claim C7 at `cjit a.c -` (one file, then one
stdin marker). -/
theorem claim_C7_witness :
    (∀ f ∈ ["a.c", "-"], startsDash f = false ∨ f = "-") ∧
    (["a.c", "-"] : List String) ≠ [] ∧
    envStd.loadStdinOk = true ∧ envStd.compileOk = true ∧
    (mainDriver ["cjit", "a.c", "-"] envStd).trace
      = [Ev.addFile "a.c", Ev.compileStdin, Ev.exec ["-"], Ev.freeSession] :=
  ⟨by decide, by decide, rfl, rfl, by
    have h := claim_C7 ["a.c", "-"] envStd (by decide) (by decide) rfl rfl
    simpa using h⟩

/-- Claim C8: the `--xtgz archive` action frees the session, then exits 1
when the archive cannot be loaded (`file_load` returns NULL) or is empty
(length 0), in both cases without any extraction effect, and otherwise
extracts the archive into the current directory `.` and exits 0
(src/src/main.c lines 173-183). -/
theorem claim_C8 (name : String) (env : Env) :
    (env.fileLoadLen = none →
      mainDriver ["cjit", "--xtgz", name] env = ⟨1, [Ev.freeSession]⟩) ∧
    (env.fileLoadLen = some 0 →
      mainDriver ["cjit", "--xtgz", name] env = ⟨1, [Ev.freeSession]⟩) ∧
    (∀ k : Nat, env.fileLoadLen = some (k + 1) →
      mainDriver ["cjit", "--xtgz", name] env
        = ⟨0, [Ev.freeSession, Ev.extract "."]⟩) := by
  obtain ⟨tty, lso, co, cfo, eo, er, fl, ctr⟩ := env
  refine ⟨?_, ?_, ?_⟩
  · intro h
    change fl = none at h
    subst h
    rfl
  · intro h
    change fl = some 0 at h
    subst h
    rfl
  · intro k h
    change fl = some (k + 1) at h
    subst h
    rfl

/-- Witness for claim C8: a loadable archive of length 3 extracts and
exits 0; an unloadable archive exits 1 with no extraction. -/
theorem claim_C8_witness :
    ({ envStd with fileLoadLen := some 3 } : Env).fileLoadLen = some 3 ∧
    mainDriver ["cjit", "--xtgz", "b.tgz"] { envStd with fileLoadLen := some 3 }
      = ⟨0, [Ev.freeSession, Ev.extract "."]⟩ ∧
    envStd.fileLoadLen = none ∧
    mainDriver ["cjit", "--xtgz", "b.tgz"] envStd = ⟨1, [Ev.freeSession]⟩ :=
  ⟨rfl, (claim_C8 "b.tgz" { envStd with fileLoadLen := some 3 }).2.2 2 rfl, rfl,
    (claim_C8 "b.tgz" envStd).1 rfl⟩

lemma procOpts4_error_inv (env : Env4) :
    ∀ (toks : List OptTok) (live : Bool) (r : Run4),
    procOpts4 env toks live = Except.error r →
    r.tookTgen = true ∨ (r.tmpdirCreated = false ∧ r.tmpdirRemoved = 0) := by
  intro toks
  induction toks with
  | nil =>
    intro live r h
    rw [procOpts4] at h
    exact nomatch h
  | cons t ts ih =>
    intro live r h
    cases t with
    | short c a =>
      rw [procOpts4] at h
      split_ifs at h with h1 h2 h3 h4 h5
      · injection h with h6
        subst h6
        exact Or.inr ⟨rfl, rfl⟩
      · injection h with h6
        subst h6
        exact Or.inr ⟨rfl, rfl⟩
      · rcases hd : defineOfArg (a.getD "").toList with _ | kv
        · rw [hd] at h
          injection h with h6
          subst h6
          exact Or.inr ⟨rfl, rfl⟩
        · rw [hd] at h
          exact ih live r h
      · exact ih live r h
      · injection h with h6
        subst h6
        exact Or.inr ⟨rfl, rfl⟩
      · exact ih live r h
    | long nm a =>
      rw [procOpts4] at h
      split_ifs at h with h1 h2 h3
      · injection h with h5
        subst h5
        exact Or.inr ⟨rfl, rfl⟩
      · exact ih true r h
      · injection h with h5
        subst h5
        exact Or.inl rfl
      · exact ih live r h
    | unknownShort c =>
      rw [procOpts4] at h
      exact ih live r h
    | unknownLong raw =>
      rw [procOpts4] at h
      exact ih live r h
    | missingArg c =>
      rw [procOpts4] at h
      exact ih live r h
    | missingLong nm =>
      rw [procOpts4] at h
      exact ih live r h

/-- Claim C4 counterexample: the `--tgen` action of src/src/cjit.c lines
200-209 creates the uniquely-named temporary directory, prints it and
exits 0 *without* calling `rm_recursive`, so after that run the directory
still exists on disk — the claim's "deleted exactly once on every exit
path, including early flag-triggered exits" fails on this path. -/
theorem claim_C4_counterexample :
    (oldDriver ["cjit", "--tgen"] env4Ok).tmpdirCreated = true ∧
    (oldDriver ["cjit", "--tgen"] env4Ok).tmpdirRemoved = 0 ∧
    (oldDriver ["cjit", "--tgen"] env4Ok).exit = 0 := by
  refine ⟨by decide, by decide, by decide⟩

/-- Claim C4, amended: on every exit path *except the `--tgen` action*
(whose purpose is to create the runtime directory and leave it for
tooling), a temporary directory created during the run is deleted
recursively exactly once before exit, and no deletion happens when none
was created: the `endgame` teardown (src/src/cjit.c lines 336-343) is the
only exit used after the post-loop `mkdtemp`, and every pre-`mkdtemp`
exit leaves nothing behind. -/
theorem claim_C4 (argv : List String) (env : Env4)
    (h : (oldDriver argv env).tookTgen = false) :
    ((oldDriver argv env).tmpdirCreated = true →
      (oldDriver argv env).tmpdirRemoved = 1) ∧
    ((oldDriver argv env).tmpdirCreated = false →
      (oldDriver argv env).tmpdirRemoved = 0) := by
  rw [oldDriver] at h ⊢
  by_cases ht : env.tccNewOk = false
  · rw [if_pos ht] at h ⊢
    exact ⟨fun hx => (nomatch hx), fun _ => rfl⟩
  · rw [if_neg ht] at h ⊢
    dsimp only at h ⊢
    rcases hp : procOpts4 env (ketoptScan oldTable argv.tail).toks false with r | live
    · rw [hp] at h
      dsimp only at h ⊢
      rcases procOpts4_error_inv env _ _ _ hp with hg | ⟨hc, hr⟩
      · rw [hg] at h
        exact nomatch h
      · rw [hc, hr]
        exact ⟨fun hx => (nomatch hx), fun _ => rfl⟩
    · dsimp only
      split_ifs with h1 h2 h3
      · exact ⟨fun hx => (nomatch hx), fun _ => rfl⟩
      · exact ⟨fun _ => rfl, fun hx => (nomatch hx)⟩
      · exact ⟨fun _ => rfl, fun hx => (nomatch hx)⟩
      · exact ⟨fun _ => rfl, fun hx => (nomatch hx)⟩

/-- Witness for the amended claim C4 at `cjit f.c` in a benign
environment: the run is not the `--tgen` action, the directory is created
and it is removed exactly once. -/
theorem claim_C4_witness :
    (oldDriver ["cjit", "f.c"] env4Ok).tookTgen = false ∧
    ((oldDriver ["cjit", "f.c"] env4Ok).tmpdirCreated = true →
      (oldDriver ["cjit", "f.c"] env4Ok).tmpdirRemoved = 1) ∧
    (oldDriver ["cjit", "f.c"] env4Ok).tmpdirCreated = true :=
  ⟨by decide, (claim_C4 ["cjit", "f.c"] env4Ok (by decide)).1, by decide⟩

end CJIT
